import Mathlib

/-!
Shallow embedding of the AuraVms submission-workflow core
(backend/src/modules/storage/storage.ts, backend/src/modules/workflow/workflow.ts,
backend/src/types/index.ts).

Modelling conventions:
* The persistent store is the decoded JSON array of records, a `List Submission`
  in insertion order; file I/O is abstracted away (readData/writeData round-trip).
* ISO-8601 timestamps are modelled as natural numbers (milliseconds since the
  epoch, the value of Date.now / new Date(s).getTime); comparisons on the
  string timestamps in the source go through getTime, so Nat order is faithful.
* The id assigned by createSubmission is Date.now().toString(), i.e. the
  decimal rendering Nat.repr of the clock reading.
* Thrown Error values become Except.error carrying the exact source message;
  operations that mutate the store return the result together with the store
  after the call (unchanged when the source throws before writing).
* The clock reading at each call is an explicit parameter named now.
-/

namespace AuraVms

/-- The SubmissionStatus enum of types/index.ts: pending, approved, rejected. -/
inductive SubmissionStatus where
  | pending
  | approved
  | rejected
deriving DecidableEq, Repr

/-- The Submission record of types/index.ts. -/
structure Submission where
  id : String
  title : String
  content : String
  imageReference : Option String
  embeddedImages : Option (List String)
  writerEmail : Option String
  status : SubmissionStatus
  createdAt : Nat
  updatedAt : Nat
deriving DecidableEq, Repr

/-- The aggregate returned by getSubmissionCounts. -/
structure SubmissionCounts where
  pending : Nat
  approved : Nat
  rejected : Nat
  total : Nat
deriving DecidableEq, Repr

namespace Storage

/-- storage.ts saveSubmission: read the collection, push the record, write back.
No duplicate-id check of any kind. -/
def saveSubmission (store : List Submission) (submission : Submission) :
    List Submission :=
  store ++ [submission]

/-- storage.ts updateSubmission: findIndex on id, throw if -1, otherwise
replace the record at that index and write back. -/
def updateSubmission (store : List Submission) (submission : Submission) :
    Except String (List Submission) :=
  match store.findIdx? (fun s => s.id == submission.id) with
  | none => Except.error ("Submission with ID " ++ submission.id ++ " not found")
  | some index => Except.ok (store.set index submission)

/-- storage.ts getSubmission: find on id, returning the record or null. -/
def getSubmission (store : List Submission) (id : String) : Option Submission :=
  store.find? (fun s => s.id == id)

/-- storage.ts getAllSubmissions: sort by createdAt descending
(comparator (a, b) => getTime(b.createdAt) - getTime(a.createdAt)). -/
def getAllSubmissions (store : List Submission) : List Submission :=
  store.mergeSort (fun a b => b.createdAt ≤ a.createdAt)

/-- storage.ts deleteSubmission: filter out the id; if the length shrank,
write back and return true, else return false. -/
def deleteSubmission (store : List Submission) (id : String) :
    Bool × List Submission :=
  let filtered := store.filter (fun s => !(s.id == id))
  if filtered.length < store.length then (true, filtered) else (false, store)

/-- storage.ts getSubmissionsByStatus: filter on status, then the same
createdAt-descending sort as getAllSubmissions. -/
def getSubmissionsByStatus (store : List Submission) (status : SubmissionStatus) :
    List Submission :=
  (store.filter (fun s => s.status == status)).mergeSort
    (fun a b => b.createdAt ≤ a.createdAt)

/-- storage.ts getSubmissionCounts: filter-lengths per status plus total. -/
def getSubmissionCounts (store : List Submission) : SubmissionCounts :=
  { pending := (store.filter (fun s => s.status == SubmissionStatus.pending)).length
    approved := (store.filter (fun s => s.status == SubmissionStatus.approved)).length
    rejected := (store.filter (fun s => s.status == SubmissionStatus.rejected)).length
    total := store.length }

end Storage

/-- The trim of the source (String.prototype.trim on title and content):
strip leading and trailing whitespace. Modelled structurally on the character
list so the kernel can evaluate it; whitespace is space, tab, CR or LF. -/
def strTrim (s : String) : String :=
  ⟨((s.data.dropWhile Char.isWhitespace).reverse.dropWhile
      Char.isWhitespace).reverse⟩

namespace Workflow

/-- workflow.ts createSubmission: reject empty-after-trim title, then
empty-after-trim content (in that order, with the source messages); otherwise
build the record with id = Date.now().toString(), trimmed title and content,
status forced to Pending, createdAt = updatedAt = now, and save it. -/
def createSubmission (store : List Submission) (now : Nat)
    (title content : String) (imageReference : Option String)
    (embeddedImages : Option (List String)) (writerEmail : Option String) :
    Except String Submission × List Submission :=
  if strTrim title = "" then
    (Except.error "Title is required and cannot be empty", store)
  else if strTrim content = "" then
    (Except.error "Content is required and cannot be empty", store)
  else
    let submission : Submission :=
      { id := Nat.repr now
        title := strTrim title
        content := strTrim content
        imageReference := imageReference
        embeddedImages := embeddedImages
        writerEmail := writerEmail
        status := SubmissionStatus.pending
        createdAt := now
        updatedAt := now }
    (Except.ok submission, Storage.saveSubmission store submission)

/-- workflow.ts validateStatusTransition: returns early when the statuses are
equal and otherwise does nothing, so it never throws. -/
def validateStatusTransition (currentStatus newStatus : SubmissionStatus) :
    Except String Unit :=
  if currentStatus = newStatus then Except.ok () else Except.ok ()

/-- workflow.ts updateSubmissionStatus: look the record up (throw the
not-found message when absent), call validateStatusTransition, then build the
updated record with the new status and updatedAt = now (unconditionally), and
persist it through Storage.updateSubmission. -/
def updateSubmissionStatus (store : List Submission) (now : Nat)
    (submissionId : String) (newStatus : SubmissionStatus) :
    Except String Submission × List Submission :=
  match Storage.getSubmission store submissionId with
  | none =>
      (Except.error ("Submission with ID " ++ submissionId ++ " not found"), store)
  | some submission =>
      match validateStatusTransition submission.status newStatus with
      | Except.error e => (Except.error e, store)
      | Except.ok _ =>
          let updatedSubmission : Submission :=
            { submission with status := newStatus, updatedAt := now }
          match Storage.updateSubmission store updatedSubmission with
          | Except.error e => (Except.error e, store)
          | Except.ok newStore => (Except.ok updatedSubmission, newStore)

/-- workflow.ts approveSubmission: updateSubmissionStatus with Approved. -/
def approveSubmission (store : List Submission) (now : Nat)
    (submissionId : String) : Except String Submission × List Submission :=
  updateSubmissionStatus store now submissionId SubmissionStatus.approved

/-- workflow.ts rejectSubmission: updateSubmissionStatus with Rejected. -/
def rejectSubmission (store : List Submission) (now : Nat)
    (submissionId : String) : Except String Submission × List Submission :=
  updateSubmissionStatus store now submissionId SubmissionStatus.rejected

/-- workflow.ts deleteSubmission: delegates to Storage.deleteSubmission. -/
def deleteSubmission (store : List Submission) (submissionId : String) :
    Bool × List Submission :=
  Storage.deleteSubmission store submissionId

end Workflow

/-! Helper lemmas about find?, findIdx? and set, used to reason about
Storage.updateSubmission (findIndex followed by index assignment). -/

/-- When find? succeeds, findIdx? (from the default start 0) succeeds too. -/
theorem findIdx?_isSome_of_find?_eq_some {α : Type} (p : α → Bool) :
    ∀ (l : List α) (x : α), l.find? p = some x → ∃ i, l.findIdx? p = some i
  | [], x, h => by simp at h
  | a :: t, x, h => by
    by_cases ha : p a
    · exact ⟨0, by simp [List.findIdx?_cons, ha]⟩
    · rw [List.find?_cons_of_neg t ha] at h
      obtain ⟨j, hj⟩ := findIdx?_isSome_of_find?_eq_some p t x h
      exact ⟨j + 1, by simp [List.findIdx?_cons, ha, List.findIdx?_succ, hj]⟩

/-- Replacing the element at the index located by findIdx? with an element
satisfying the predicate makes that element the first match of find?. -/
theorem find?_set_findIdx? {α : Type} (p : α → Bool) :
    ∀ (l : List α) (i : Nat) (y : α), l.findIdx? p = some i → p y = true →
      (l.set i y).find? p = some y
  | [], i, y, h, _ => by simp at h
  | a :: t, i, y, h, hy => by
    by_cases ha : p a
    · rw [List.findIdx?_cons, if_pos ha] at h
      obtain rfl : 0 = i := Option.some.inj h
      simpa [List.set_cons_zero] using List.find?_cons_of_pos t hy
    · rw [List.findIdx?_cons, if_neg ha, List.findIdx?_succ] at h
      obtain ⟨j, hj, rfl⟩ := Option.map_eq_some'.mp h
      rw [List.set_cons_succ, List.find?_cons_of_neg _ ha]
      exact find?_set_findIdx? p t j y hj hy

/-- Whenever getSubmission resolves an id to a stored record,
updateSubmissionStatus succeeds, returns that record with the requested status
and updatedAt set to the clock reading, and the persisted store afterwards
resolves the id to exactly that updated record. -/
theorem updateSubmissionStatus_found (store : List Submission) (now : Nat)
    (id : String) (sub : Submission) (newStatus : SubmissionStatus)
    (h : Storage.getSubmission store id = some sub) :
    ∃ newStore,
      Workflow.updateSubmissionStatus store now id newStatus
        = (Except.ok { sub with status := newStatus, updatedAt := now }, newStore)
      ∧ Storage.getSubmission newStore id
        = some { sub with status := newStatus, updatedAt := now } := by
  have hid : sub.id = id := by simpa using List.find?_some h
  obtain ⟨i, hi⟩ :=
    findIdx?_isSome_of_find?_eq_some (fun s : Submission => s.id == id) store sub h
  have hpred : (fun t : Submission =>
        t.id == ({ sub with status := newStatus, updatedAt := now } : Submission).id)
      = fun t : Submission => t.id == id := by
    funext t
    rw [show ({ sub with status := newStatus, updatedAt := now } : Submission).id = id
      from hid]
  have hupd : Storage.updateSubmission store
      { sub with status := newStatus, updatedAt := now }
      = Except.ok (store.set i { sub with status := newStatus, updatedAt := now }) := by
    simp only [Storage.updateSubmission, hpred, hi]
  have hval : Workflow.validateStatusTransition sub.status newStatus
      = Except.ok () := by
    simp [Workflow.validateStatusTransition]
  refine ⟨store.set i { sub with status := newStatus, updatedAt := now }, ?_, ?_⟩
  · simp only [Workflow.updateSubmissionStatus, h, hval, hupd]
  · have hpy : ((({ sub with status := newStatus, updatedAt := now } : Submission)).id
        == id) = true := by simp [hid]
    exact find?_set_findIdx? (fun t : Submission => t.id == id) store i _ hi hpy

/-- A concrete pending submission with createdAt = updatedAt = 0, used as a
concrete store element in counterexamples and witnesses. -/
def cexSub : Submission :=
  { id := "1", title := "t", content := "c", imageReference := none,
    embeddedImages := none, writerEmail := none,
    status := SubmissionStatus.pending, createdAt := 0, updatedAt := 0 }

/-- C1: the claim is false on the code. Re-applying the current status
(pending to pending) at clock reading 1 succeeds, but the returned and
persisted record carry updatedAt = 1, not the previous value 0: the code
refreshes the timestamp unconditionally. -/
theorem C1_counterexample :
    (Workflow.updateSubmissionStatus [cexSub] 1 "1" SubmissionStatus.pending).1
        = Except.ok { cexSub with updatedAt := 1 }
      ∧ Storage.getSubmission
          (Workflow.updateSubmissionStatus [cexSub] 1 "1" SubmissionStatus.pending).2
          "1"
        = some { cexSub with updatedAt := 1 }
      ∧ cexSub.updatedAt = 0 ∧ ({ cexSub with updatedAt := 1 }).updatedAt ≠ 0 :=
  ⟨rfl, rfl, rfl, by decide⟩

/-- C1 (amended): when the stored record's current status equals the requested
new status, updateSubmissionStatus still succeeds and leaves the status
unchanged, but it refreshes updatedAt to the clock reading of the call, in
both the returned and the persisted record. -/
theorem C1_same_status_refreshes_updatedAt (store : List Submission) (now : Nat)
    (id : String) (sub : Submission)
    (h : Storage.getSubmission store id = some sub) :
    ∃ newStore,
      Workflow.updateSubmissionStatus store now id sub.status
        = (Except.ok { sub with updatedAt := now }, newStore)
      ∧ Storage.getSubmission newStore id = some { sub with updatedAt := now } :=
  updateSubmissionStatus_found store now id sub sub.status h

/-- Witness for C1 (amended) at a concrete store and clock reading. -/
theorem C1_same_status_refreshes_updatedAt_witness :
    ∃ newStore,
      Workflow.updateSubmissionStatus [cexSub] 7 "1" cexSub.status
        = (Except.ok { cexSub with updatedAt := 7 }, newStore)
      ∧ Storage.getSubmission newStore "1" = some { cexSub with updatedAt := 7 } :=
  C1_same_status_refreshes_updatedAt [cexSub] 7 "1" cexSub (by decide)

/-- C2: any transition between distinct statuses succeeds (no transition is
rejected because of the current state), yields a record with the requested
status, and, when the clock reading of the call is strictly later than the
stored updatedAt, strictly increases updatedAt; both the returned and the
persisted record agree. -/
theorem C2_any_transition_succeeds (store : List Submission) (now : Nat)
    (id : String) (sub : Submission) (newStatus : SubmissionStatus)
    (h : Storage.getSubmission store id = some sub)
    (hne : sub.status ≠ newStatus)
    (hclk : sub.updatedAt < now) :
    ∃ newStore,
      Workflow.updateSubmissionStatus store now id newStatus
        = (Except.ok { sub with status := newStatus, updatedAt := now }, newStore)
      ∧ ({ sub with status := newStatus, updatedAt := now } : Submission).status
          = newStatus
      ∧ sub.updatedAt
          < ({ sub with status := newStatus, updatedAt := now } : Submission).updatedAt
      ∧ Storage.getSubmission newStore id
          = some { sub with status := newStatus, updatedAt := now } := by
  obtain ⟨ns, h1, h2⟩ := updateSubmissionStatus_found store now id sub newStatus h
  exact ⟨ns, h1, rfl, hclk, h2⟩

/-- The record cexSub as updated by an approval at clock reading 5. -/
def cexSubApproved : Submission :=
  { cexSub with status := SubmissionStatus.approved, updatedAt := 5 }

/-- Witness for C2 at a concrete store, transition pending to approved. -/
theorem C2_any_transition_succeeds_witness :
    ∃ newStore,
      Workflow.updateSubmissionStatus [cexSub] 5 "1" SubmissionStatus.approved
        = (Except.ok cexSubApproved, newStore)
      ∧ cexSubApproved.status = SubmissionStatus.approved
      ∧ cexSub.updatedAt < cexSubApproved.updatedAt
      ∧ Storage.getSubmission newStore "1" = some cexSubApproved :=
  C2_any_transition_succeeds [cexSub] 5 "1" cexSub SubmissionStatus.approved
    (by decide) (by decide) (by decide)

/-- C5: with title and content non-empty after trimming, createSubmission
returns and appends to the store a record carrying the trimmed title and
content, status pending (there is no caller-supplied status at all), and
createdAt = updatedAt = the clock reading of the call. -/
theorem C5_create_valid (store : List Submission) (now : Nat)
    (title content : String) (imageReference : Option String)
    (embeddedImages : Option (List String)) (writerEmail : Option String)
    (ht : strTrim title ≠ "") (hc : strTrim content ≠ "") :
    ∃ sub,
      Workflow.createSubmission store now title content imageReference
          embeddedImages writerEmail
        = (Except.ok sub, store ++ [sub])
      ∧ sub.title = strTrim title ∧ sub.content = strTrim content
      ∧ sub.status = SubmissionStatus.pending
      ∧ sub.createdAt = now ∧ sub.updatedAt = now := by
  refine ⟨{ id := Nat.repr now
            title := strTrim title
            content := strTrim content
            imageReference := imageReference
            embeddedImages := embeddedImages
            writerEmail := writerEmail
            status := SubmissionStatus.pending
            createdAt := now
            updatedAt := now }, ?_, rfl, rfl, rfl, rfl, rfl⟩
  unfold Workflow.createSubmission
  rw [if_neg ht, if_neg hc]
  rfl

/-- Witness for C5 on concrete padded inputs at clock reading 4. -/
theorem C5_create_valid_witness :
    ∃ sub,
      Workflow.createSubmission [] 4 " T " " B " none none none
        = (Except.ok sub, [] ++ [sub])
      ∧ sub.title = strTrim " T " ∧ sub.content = strTrim " B "
      ∧ sub.status = SubmissionStatus.pending
      ∧ sub.createdAt = 4 ∧ sub.updatedAt = 4 :=
  C5_create_valid [] 4 " T " " B " none none none (by decide) (by decide)

/-- C6: when no stored record carries the requested id, getSubmission returns
none (an explicit absent result, not an error, by its very return type), and
updateSubmissionStatus fails with the not-found message, leaving the store
unchanged. -/
theorem C6_not_found (store : List Submission) (now : Nat) (id : String)
    (newStatus : SubmissionStatus) (h : ∀ s ∈ store, s.id ≠ id) :
    Storage.getSubmission store id = none
    ∧ Workflow.updateSubmissionStatus store now id newStatus
        = (Except.error ("Submission with ID " ++ id ++ " not found"), store) := by
  have hg : Storage.getSubmission store id = none := by
    simp only [Storage.getSubmission, List.find?_eq_none]
    intro s hs
    simpa using h s hs
  refine ⟨hg, ?_⟩
  simp only [Workflow.updateSubmissionStatus, hg]

/-- Witness for C6 with a store that does not contain the id zzz. -/
theorem C6_not_found_witness :
    Storage.getSubmission [cexSub] "zzz" = none
    ∧ Workflow.updateSubmissionStatus [cexSub] 3 "zzz" SubmissionStatus.approved
        = (Except.error ("Submission with ID " ++ "zzz" ++ " not found"), [cexSub]) :=
  C6_not_found [cexSub] 3 "zzz" SubmissionStatus.approved (by decide)

/-- A second record carrying the same id as cexSub, for the duplicate-save
behavior. -/
def cexDup : Submission := { cexSub with title := "u", content := "v" }

/-- C10: saveSubmission performs no duplicate-id check: saving a record whose
id is already stored appends it (no conflict error, no overwrite), grows the
count by one, and getSubmission afterwards still returns the earlier-saved
record, the first match in insertion order. -/
theorem C10_duplicate_id_appends (store : List Submission) (s0 dup : Submission)
    (h : Storage.getSubmission store dup.id = some s0) :
    Storage.saveSubmission store dup = store ++ [dup]
    ∧ (Storage.saveSubmission store dup).length = store.length + 1
    ∧ Storage.getSubmission (Storage.saveSubmission store dup) dup.id = some s0 := by
  refine ⟨rfl, by simp [Storage.saveSubmission], ?_⟩
  simp only [Storage.saveSubmission, Storage.getSubmission, List.find?_append]
  rw [show store.find? (fun s : Submission => s.id == dup.id) = some s0 from h]
  rfl

/-- Witness for C10: cexDup shares the id of the already-stored cexSub. -/
theorem C10_duplicate_id_appends_witness :
    Storage.saveSubmission [cexSub] cexDup = [cexSub] ++ [cexDup]
    ∧ (Storage.saveSubmission [cexSub] cexDup).length = [cexSub].length + 1
    ∧ Storage.getSubmission (Storage.saveSubmission [cexSub] cexDup) cexDup.id
        = some cexSub :=
  C10_duplicate_id_appends [cexSub] cexSub cexDup (by decide)

/-- C4: the claim is false on the code as universally stated: with an empty
title AND an empty content, the call fails with the title-related message, not
the content-related one, because the title check runs first. -/
theorem C4_counterexample :
    strTrim "" = ""
    ∧ (Workflow.createSubmission [] 0 "" "" none none none).1
        = Except.error "Title is required and cannot be empty"
    ∧ (Workflow.createSubmission [] 0 "" "" none none none).1
        ≠ Except.error "Content is required and cannot be empty" := by
  refine ⟨rfl, rfl, ?_⟩
  intro h
  have hmsg : "Title is required and cannot be empty"
      = "Content is required and cannot be empty" := Except.error.inj h
  exact absurd hmsg (by decide)

/-- C4 (amended): an empty-after-trim title always fails with the
title-required message and leaves the store untouched; an empty-after-trim
content fails with the content-required message and leaves the store
untouched whenever the title is non-empty after trimming (the title check
takes precedence). -/
theorem C4_validation (store : List Submission) (now : Nat)
    (imageReference : Option String) (embeddedImages : Option (List String))
    (writerEmail : Option String) (title content : String) :
    (strTrim title = "" →
      Workflow.createSubmission store now title content imageReference
          embeddedImages writerEmail
        = (Except.error "Title is required and cannot be empty", store))
    ∧ (strTrim title ≠ "" → strTrim content = "" →
      Workflow.createSubmission store now title content imageReference
          embeddedImages writerEmail
        = (Except.error "Content is required and cannot be empty", store)) := by
  constructor
  · intro ht
    unfold Workflow.createSubmission
    rw [if_pos ht]
  · intro ht hc
    unfold Workflow.createSubmission
    rw [if_neg ht, if_pos hc]

/-! The reachable-state model for the invariant claim: the core operations of
the Workflow Engine, each applied at an explicit clock reading. -/

/-- One core operation of the Workflow Engine. -/
inductive Op where
  | create (title content : String) (imageReference : Option String)
      (embeddedImages : Option (List String)) (writerEmail : Option String)
  | update (id : String) (newStatus : SubmissionStatus)
  | approve (id : String)
  | reject (id : String)
  | delete (id : String)

/-- The store after one core operation at clock reading now; a failed
operation (validation or not-found) leaves the store unchanged, exactly as the
source throws before writing. -/
def applyOp (store : List Submission) (now : Nat) : Op → List Submission
  | Op.create title content imageReference embeddedImages writerEmail =>
      (Workflow.createSubmission store now title content imageReference
        embeddedImages writerEmail).2
  | Op.update id newStatus =>
      (Workflow.updateSubmissionStatus store now id newStatus).2
  | Op.approve id => (Workflow.approveSubmission store now id).2
  | Op.reject id => (Workflow.rejectSubmission store now id).2
  | Op.delete id => (Workflow.deleteSubmission store id).2

/-- Run a sequence of operations, each timed with its clock reading. -/
def runOps (store : List Submission) : List (Nat × Op) → List Submission
  | [] => store
  | (t, op) :: rest => runOps (applyOp store t op) rest

/-- The record invariant of the spec: a legal status value and
createdAt ≤ updatedAt. -/
def SubInv (s : Submission) : Prop :=
  (s.status = SubmissionStatus.pending ∨ s.status = SubmissionStatus.approved
    ∨ s.status = SubmissionStatus.rejected)
  ∧ s.createdAt ≤ s.updatedAt

/-- Every stored record satisfies the record invariant. -/
def StoreInv (store : List Submission) : Prop := ∀ s ∈ store, SubInv s

/-- Every stored updatedAt is at most the given clock reading: the clock never
runs behind the store. -/
def TimeBound (store : List Submission) (now : Nat) : Prop :=
  ∀ s ∈ store, s.updatedAt ≤ now

/-- The store component produced by updateSubmissionStatus is either the old
store (failure) or the old store with one record replaced by the found record
carrying the new status and updatedAt = now. -/
theorem updateSubmissionStatus_snd (store : List Submission) (now : Nat)
    (id : String) (newStatus : SubmissionStatus) :
    (Workflow.updateSubmissionStatus store now id newStatus).2 = store
    ∨ ∃ sub i, Storage.getSubmission store id = some sub
        ∧ (Workflow.updateSubmissionStatus store now id newStatus).2
            = store.set i { sub with status := newStatus, updatedAt := now } := by
  unfold Workflow.updateSubmissionStatus
  cases hg : Storage.getSubmission store id with
  | none => exact Or.inl rfl
  | some sub =>
    have hval : Workflow.validateStatusTransition sub.status newStatus
        = Except.ok () := by simp [Workflow.validateStatusTransition]
    simp only [hval]
    unfold Storage.updateSubmission
    cases hidx : store.findIdx? (fun t : Submission =>
        t.id == ({ sub with status := newStatus, updatedAt := now } : Submission).id) with
    | none => exact Or.inl rfl
    | some i => exact Or.inr ⟨sub, i, rfl, rfl⟩

/-- updateSubmissionStatus preserves the record invariant and the clock
bound. -/
theorem updateStatus_preserves (store : List Submission) (now : Nat)
    (id : String) (newStatus : SubmissionStatus)
    (hinv : StoreInv store) (htb : TimeBound store now) :
    StoreInv (Workflow.updateSubmissionStatus store now id newStatus).2
    ∧ TimeBound (Workflow.updateSubmissionStatus store now id newStatus).2 now := by
  rcases updateSubmissionStatus_snd store now id newStatus with h | ⟨sub, i, hg, h⟩
  · rw [h]; exact ⟨hinv, htb⟩
  · rw [h]
    have hsub : sub ∈ store := List.mem_of_find?_eq_some hg
    constructor
    · intro s hs
      rcases List.mem_or_eq_of_mem_set hs with hs | rfl
      · exact hinv s hs
      · refine ⟨?_, Nat.le_trans (hinv sub hsub).2 (htb sub hsub)⟩
        cases newStatus with
        | pending => exact Or.inl rfl
        | approved => exact Or.inr (Or.inl rfl)
        | rejected => exact Or.inr (Or.inr rfl)
    · intro s hs
      rcases List.mem_or_eq_of_mem_set hs with hs | rfl
      · exact htb s hs
      · exact Nat.le_refl now

/-- createSubmission preserves the record invariant and the clock bound. -/
theorem createSubmission_preserves (store : List Submission) (now : Nat)
    (title content : String) (imageReference : Option String)
    (embeddedImages : Option (List String)) (writerEmail : Option String)
    (hinv : StoreInv store) (htb : TimeBound store now) :
    StoreInv (Workflow.createSubmission store now title content imageReference
        embeddedImages writerEmail).2
    ∧ TimeBound (Workflow.createSubmission store now title content imageReference
        embeddedImages writerEmail).2 now := by
  unfold Workflow.createSubmission
  by_cases ht : strTrim title = ""
  · rw [if_pos ht]; exact ⟨hinv, htb⟩
  · rw [if_neg ht]
    by_cases hc : strTrim content = ""
    · rw [if_pos hc]; exact ⟨hinv, htb⟩
    · rw [if_neg hc]
      constructor
      · intro s hs
        rcases List.mem_append.mp hs with hs | hs
        · exact hinv s hs
        · have hseq := List.mem_singleton.mp hs
          subst hseq
          exact ⟨Or.inl rfl, Nat.le_refl now⟩
      · intro s hs
        rcases List.mem_append.mp hs with hs | hs
        · exact htb s hs
        · have hseq := List.mem_singleton.mp hs
          subst hseq
          exact Nat.le_refl now

/-- Every record surviving deleteSubmission was already stored. -/
theorem mem_deleteSubmission_snd (store : List Submission) (id : String)
    (s : Submission) (hs : s ∈ (Storage.deleteSubmission store id).2) :
    s ∈ store := by
  simp only [Storage.deleteSubmission] at hs
  split at hs
  · exact List.mem_of_mem_filter hs
  · exact hs

/-- One operation preserves the record invariant and the clock bound. -/
theorem applyOp_preserves (store : List Submission) (now : Nat) (op : Op)
    (hinv : StoreInv store) (htb : TimeBound store now) :
    StoreInv (applyOp store now op) ∧ TimeBound (applyOp store now op) now := by
  cases op with
  | create title content imageReference embeddedImages writerEmail =>
      exact createSubmission_preserves store now title content imageReference
        embeddedImages writerEmail hinv htb
  | update id newStatus => exact updateStatus_preserves store now id newStatus hinv htb
  | approve id =>
      exact updateStatus_preserves store now id SubmissionStatus.approved hinv htb
  | reject id =>
      exact updateStatus_preserves store now id SubmissionStatus.rejected hinv htb
  | delete id =>
      exact ⟨fun s hs => hinv s (mem_deleteSubmission_snd store id s hs),
        fun s hs => htb s (mem_deleteSubmission_snd store id s hs)⟩

/-- Running a chronological sequence of operations preserves the record
invariant. -/
theorem runOps_preserves :
    ∀ (ops : List (Nat × Op)) (store : List Submission) (t0 : Nat),
      StoreInv store → TimeBound store t0 →
      List.Chain (fun a b : Nat => a ≤ b) t0 (ops.map Prod.fst) →
      StoreInv (runOps store ops)
  | [], _, _, hinv, _, _ => hinv
  | (t, op) :: rest, store, t0, hinv, htb, hchain => by
    cases hchain with
    | cons hle hchain =>
      have htb2 : TimeBound store t := fun s hs => Nat.le_trans (htb s hs) hle
      obtain ⟨hinv2, htb3⟩ := applyOp_preserves store t op hinv htb2
      exact runOps_preserves rest (applyOp store t op) t hinv2 htb3 hchain

/-- C3: from any store satisfying the invariant, every store reachable by a
chronological sequence of the core operations (createSubmission,
updateSubmissionStatus, approveSubmission, rejectSubmission,
deleteSubmission) satisfies the invariant: every record has status pending,
approved or rejected, and createdAt ≤ updatedAt. -/
theorem C3_invariant_preserved (ops : List (Nat × Op)) (store : List Submission)
    (t0 : Nat) (hinv : StoreInv store) (htb : TimeBound store t0)
    (hchain : List.Chain (fun a b : Nat => a ≤ b) t0 (ops.map Prod.fst)) :
    StoreInv (runOps store ops) :=
  runOps_preserves ops store t0 hinv htb hchain

/-- Witness for C3: a concrete run from the empty store, creating a
submission, approving it, rejecting it and deleting it, at increasing clock
readings. -/
theorem C3_invariant_preserved_witness :
    StoreInv (runOps [] [(1, Op.create "t" "c" none none none),
      (2, Op.approve "1"), (3, Op.reject "1"), (4, Op.delete "1")]) :=
  C3_invariant_preserved
    [(1, Op.create "t" "c" none none none),
      (2, Op.approve "1"), (3, Op.reject "1"), (4, Op.delete "1")] [] 0
    (fun s hs => absurd hs (List.not_mem_nil s))
    (fun s hs => absurd hs (List.not_mem_nil s))
    (List.Chain.cons (by omega) (List.Chain.cons (by omega)
      (List.Chain.cons (by omega) (List.Chain.cons (by omega) List.Chain.nil))))

/-- Witness for C4 (amended): a whitespace-only title, then a whitespace-only
content behind a valid title. -/
theorem C4_validation_witness :
    Workflow.createSubmission [] 0 "   " "x" none none none
      = (Except.error "Title is required and cannot be empty", [])
    ∧ Workflow.createSubmission [] 0 "t" "   " none none none
      = (Except.error "Content is required and cannot be empty", []) :=
  ⟨(C4_validation [] 0 none none none "   " "x").1 (by decide),
   (C4_validation [] 0 none none none "t" "   ").2 (by decide) (by decide)⟩

/-! Ordering and counting of the read operations. -/

/-- The createdAt-descending sort used by the storage reads is sorted:
pairwise, every later element has a createdAt at most the earlier one. -/
theorem pairwise_desc_mergeSort (l : List Submission) :
    List.Pairwise (fun a b : Submission => b.createdAt ≤ a.createdAt)
      (l.mergeSort (fun a b => b.createdAt ≤ a.createdAt)) := by
  refine List.Pairwise.imp ?_ (List.sorted_mergeSort ?_ ?_ l)
  · intro a b hab
    simpa using hab
  · intro a b c hab hbc
    simp only [decide_eq_true_eq] at hab hbc ⊢
    omega
  · intro a b
    simp only [Bool.or_eq_true, decide_eq_true_eq]
    omega

/-- C7: getAllSubmissions returns exactly the stored records (a permutation of
the store) in createdAt-descending order, and getSubmissionsByStatus returns
exactly the stored records with the requested status, in the same
createdAt-descending order. -/
theorem C7_ordering (store : List Submission) (status : SubmissionStatus) :
    (Storage.getAllSubmissions store).Perm store
    ∧ List.Pairwise (fun a b : Submission => b.createdAt ≤ a.createdAt)
        (Storage.getAllSubmissions store)
    ∧ (Storage.getSubmissionsByStatus store status).Perm
        (store.filter (fun s => s.status == status))
    ∧ List.Pairwise (fun a b : Submission => b.createdAt ≤ a.createdAt)
        (Storage.getSubmissionsByStatus store status) :=
  ⟨List.mergeSort_perm store _, pairwise_desc_mergeSort store,
    List.mergeSort_perm _ _, pairwise_desc_mergeSort _⟩

/-- The three per-status counts add up to the total count. -/
theorem counts_sum (store : List Submission) :
    (Storage.getSubmissionCounts store).pending
      + (Storage.getSubmissionCounts store).approved
      + (Storage.getSubmissionCounts store).rejected
    = (Storage.getSubmissionCounts store).total := by
  induction store with
  | nil => rfl
  | cons s t ih =>
    simp only [Storage.getSubmissionCounts, List.filter_cons,
      List.length_cons] at ih ⊢
    cases hs : s.status with
    | pending => simp only [hs, beq_self_eq_true, if_true]
                 simp only [show (SubmissionStatus.pending
                     == SubmissionStatus.approved) = false from rfl,
                   show (SubmissionStatus.pending
                     == SubmissionStatus.rejected) = false from rfl,
                   Bool.false_eq_true, if_false, List.length_cons]
                 omega
    | approved => simp only [hs, beq_self_eq_true, if_true]
                  simp only [show (SubmissionStatus.approved
                      == SubmissionStatus.pending) = false from rfl,
                    show (SubmissionStatus.approved
                      == SubmissionStatus.rejected) = false from rfl,
                    Bool.false_eq_true, if_false, List.length_cons]
                  omega
    | rejected => simp only [hs, beq_self_eq_true, if_true]
                  simp only [show (SubmissionStatus.rejected
                      == SubmissionStatus.pending) = false from rfl,
                    show (SubmissionStatus.rejected
                      == SubmissionStatus.approved) = false from rfl,
                    Bool.false_eq_true, if_false, List.length_cons]
                  omega

/-- C8: getSubmissionCounts agrees with the collection getAllSubmissions
returns at the same instant: each per-status count is the number of records
of that status in it, total is its length, and pending + approved + rejected
equals total. -/
theorem C8_counts (store : List Submission) :
    (Storage.getSubmissionCounts store).pending
        = ((Storage.getAllSubmissions store).filter
            (fun s => s.status == SubmissionStatus.pending)).length
    ∧ (Storage.getSubmissionCounts store).approved
        = ((Storage.getAllSubmissions store).filter
            (fun s => s.status == SubmissionStatus.approved)).length
    ∧ (Storage.getSubmissionCounts store).rejected
        = ((Storage.getAllSubmissions store).filter
            (fun s => s.status == SubmissionStatus.rejected)).length
    ∧ (Storage.getSubmissionCounts store).total
        = (Storage.getAllSubmissions store).length
    ∧ (Storage.getSubmissionCounts store).pending
        + (Storage.getSubmissionCounts store).approved
        + (Storage.getSubmissionCounts store).rejected
      = (Storage.getSubmissionCounts store).total := by
  have hperm := List.mergeSort_perm store
    (fun a b : Submission => decide (b.createdAt ≤ a.createdAt))
  exact ⟨((hperm.filter _).length_eq).symm, ((hperm.filter _).length_eq).symm,
    ((hperm.filter _).length_eq).symm, hperm.length_eq.symm, counts_sum store⟩

/-! Injectivity of the decimal id rendering: the id assigned by
createSubmission is Date.now().toString(), i.e. Nat.repr of the clock
reading, so distinct clock readings give distinct ids and equal clock
readings give equal ids. -/

/-- Most-significant-first decimal digits of a natural number, the
mathematical content of the fuel-driven Nat.toDigitsCore at base 10. -/
def decDigits (n : Nat) : List Nat :=
  if h : n < 10 then [n]
  else decDigits (n / 10) ++ [n % 10]
decreasing_by
  exact Nat.div_lt_self (by omega) (by omega)

/-- With enough fuel, Nat.toDigitsCore at base 10 renders exactly the decimal
digits, most significant first, in front of the accumulator. -/
theorem toDigitsCore_eq :
    ∀ (f n : Nat) (ds : List Char), n < f →
      Nat.toDigitsCore 10 f n ds = (decDigits n).map Nat.digitChar ++ ds
  | 0, n, _, h => absurd h (Nat.not_lt_zero n)
  | f + 1, n, ds, h => by
    unfold Nat.toDigitsCore
    by_cases h10 : n / 10 = 0
    · have hlt : n < 10 := by omega
      rw [if_pos h10, decDigits, dif_pos hlt, Nat.mod_eq_of_lt hlt]
      rfl
    · have hge : ¬ n < 10 := by omega
      have hf : n / 10 < f := by omega
      have hdec : decDigits n = decDigits (n / 10) ++ [n % 10] := by
        rw [decDigits, dif_neg hge]
      rw [if_neg h10, toDigitsCore_eq f (n / 10) _ hf, hdec]
      simp

/-- Nat.repr renders the decimal digits of its argument. -/
theorem natRepr_eq (n : Nat) :
    Nat.repr n = ((decDigits n).map Nat.digitChar).asString := by
  have h := toDigitsCore_eq (n + 1) n [] (Nat.lt_succ_self n)
  unfold Nat.repr Nat.toDigits
  rw [h, List.append_nil]

/-- Evaluate a most-significant-first digit list back to a number. -/
def unDigits (l : List Nat) : Nat :=
  l.foldl (fun acc d => 10 * acc + d) 0

/-- decDigits round-trips through unDigits. -/
theorem unDigits_decDigits (n : Nat) : unDigits (decDigits n) = n := by
  induction n using decDigits.induct with
  | case1 n h =>
    rw [decDigits, dif_pos h]
    simp [unDigits]
  | case2 n h ih =>
    rw [decDigits, dif_neg h]
    simp only [unDigits, List.foldl_append, List.foldl_cons,
      List.foldl_nil] at ih ⊢
    omega

/-- Every decimal digit produced by decDigits is below 10. -/
theorem decDigits_lt (n : Nat) : ∀ d ∈ decDigits n, d < 10 := by
  induction n using decDigits.induct with
  | case1 n h =>
    rw [decDigits, dif_pos h]
    intro d hd
    rw [List.mem_singleton.mp hd]
    exact h
  | case2 n h ih =>
    rw [decDigits, dif_neg h]
    intro d hd
    rcases List.mem_append.mp hd with hd | hd
    · exact ih d hd
    · rw [List.mem_singleton.mp hd]
      exact Nat.mod_lt n (by omega)

/-- Nat.digitChar is injective on decimal digits. -/
theorem digitChar_inj_lt :
    ∀ a, a < 10 → ∀ b, b < 10 → Nat.digitChar a = Nat.digitChar b → a = b := by
  decide

/-- Mapping Nat.digitChar over digit lists is injective. -/
theorem map_digitChar_inj :
    ∀ (l1 l2 : List Nat), (∀ d ∈ l1, d < 10) → (∀ d ∈ l2, d < 10) →
      l1.map Nat.digitChar = l2.map Nat.digitChar → l1 = l2
  | [], [], _, _, _ => rfl
  | [], _ :: _, _, _, h => by simp at h
  | _ :: _, [], _, _, h => by simp at h
  | a :: l1, b :: l2, h1, h2, h => by
    simp only [List.map_cons, List.cons.injEq] at h
    obtain ⟨hab, htail⟩ := h
    have hd : a = b := digitChar_inj_lt a (h1 a (List.mem_cons_self a l1))
      b (h2 b (List.mem_cons_self b l2)) hab
    subst hd
    rw [map_digitChar_inj l1 l2 (fun d hd => h1 d (List.mem_cons_of_mem a hd))
      (fun d hd => h2 d (List.mem_cons_of_mem a hd)) htail]

/-- The decimal rendering Nat.repr is injective: distinct clock readings give
distinct ids. -/
theorem natRepr_injective (m n : Nat) (h : Nat.repr m = Nat.repr n) : m = n := by
  rw [natRepr_eq, natRepr_eq] at h
  have hdata : (decDigits m).map Nat.digitChar = (decDigits n).map Nat.digitChar :=
    congrArg String.data h
  have hdig := map_digitChar_inj (decDigits m) (decDigits n)
    (decDigits_lt m) (decDigits_lt n) hdata
  calc m = unDigits (decDigits m) := (unDigits_decDigits m).symm
    _ = unDigits (decDigits n) := by rw [hdig]
    _ = n := unDigits_decDigits n

/-- A successful createSubmission returns a record whose id is the rendered
clock reading of the call. -/
theorem createSubmission_ok_id (store : List Submission) (now : Nat)
    (title content : String) (imageReference : Option String)
    (embeddedImages : Option (List String)) (writerEmail : Option String)
    (sub : Submission)
    (h : (Workflow.createSubmission store now title content imageReference
        embeddedImages writerEmail).1 = Except.ok sub) :
    sub.id = Nat.repr now := by
  unfold Workflow.createSubmission at h
  by_cases ht : strTrim title = ""
  · rw [if_pos ht] at h
    exact absurd h (by simp)
  · rw [if_neg ht] at h
    by_cases hc : strTrim content = ""
    · rw [if_pos hc] at h
      exact absurd h (by simp)
    · rw [if_neg hc] at h
      rw [← Except.ok.inj h]

/-- C9: the claim is false on the code: two successful createSubmission calls
issued in sequence within the same millisecond (the same Date.now reading, 5
here) both return a record whose id is the same rendered reading. -/
theorem C9_counterexample :
    (Workflow.createSubmission [] 5 "t" "c" none none none).1.toOption.map
        Submission.id = some (Nat.repr 5)
    ∧ (Workflow.createSubmission
          (Workflow.createSubmission [] 5 "t" "c" none none none).2
          5 "t" "c" none none none).1.toOption.map Submission.id
        = some (Nat.repr 5) :=
  ⟨rfl, rfl⟩

/-- C9 (amended): two successful createSubmission calls issued in sequence
return records with distinct ids whenever the two calls observe distinct
clock readings (Date.now values). -/
theorem C9_distinct_ids (store : List Submission) (n1 n2 : Nat)
    (t1 c1 t2 c2 : String) (i1 i2 : Option String)
    (e1 e2 : Option (List String)) (w1 w2 : Option String) (s1 s2 : Submission)
    (h1 : (Workflow.createSubmission store n1 t1 c1 i1 e1 w1).1 = Except.ok s1)
    (h2 : (Workflow.createSubmission
        (Workflow.createSubmission store n1 t1 c1 i1 e1 w1).2
        n2 t2 c2 i2 e2 w2).1 = Except.ok s2)
    (hne : n1 ≠ n2) : s1.id ≠ s2.id := by
  rw [createSubmission_ok_id store n1 t1 c1 i1 e1 w1 s1 h1,
    createSubmission_ok_id _ n2 t2 c2 i2 e2 w2 s2 h2]
  intro h
  exact hne (natRepr_injective n1 n2 h)

/-- The record created by the first witness call, at clock reading 1. -/
def c9sub1 : Submission :=
  { id := Nat.repr 1
    title := strTrim "t"
    content := strTrim "c"
    imageReference := none
    embeddedImages := none
    writerEmail := none
    status := SubmissionStatus.pending
    createdAt := 1
    updatedAt := 1 }

/-- The record created by the second witness call, at clock reading 2. -/
def c9sub2 : Submission :=
  { id := Nat.repr 2
    title := strTrim "t"
    content := strTrim "c"
    imageReference := none
    embeddedImages := none
    writerEmail := none
    status := SubmissionStatus.pending
    createdAt := 2
    updatedAt := 2 }

/-- Witness for C9 (amended): two sequential creations at clock readings 1
and 2 yield records with distinct ids. -/
theorem C9_distinct_ids_witness : c9sub1.id ≠ c9sub2.id :=
  C9_distinct_ids [] 1 2 "t" "c" "t" "c" none none none none none none
    c9sub1 c9sub2 rfl rfl (by decide)

end AuraVms
